import Mathlib

/- A shallow embedding of the DashboardQualitor pipeline (src/main.py):
   the ticket normalizer inside `load_data`, the backlog-ledger construction
   inside the backlog tab of `create_charts`, the SLA metric of
   `create_metrics`, and the row filter of `main`.

   Timestamps are modelled by their calendar year and month (feeding
   `dt.to_period("M")`) together with a linear clock value in minutes
   (feeding timestamp subtraction and `between`).  A pandas `NaT` is
   `Option.none`.  Nullable string columns are `Option String`; a pandas
   string comparison with `NaN` is false, matching `none == some _`. -/

namespace Dashboard

structure Timestamp where
  year : Nat
  month : Nat
  minutes : Int
deriving DecidableEq

/-- A row of the dataframe handed around the dashboard (the columns the
claims touch).  `opened`/`closed` are `Data da abertura` /
`Data de término do atendimento` after `pd.to_datetime(..., errors='coerce')`. -/
structure Row where
  atendimento : String
  situacao : Option String
  etapa : Option String
  cat1 : Option String
  cat2 : Option String
  prioridade : Option String
  equipe : Option String
  responsavel : Option String
  atraso : Option String
  opened : Option Timestamp
  closed : Option Timestamp
deriving DecidableEq

/-- One decimal digit as a character (used to render `YYYY-MM` period labels). -/
def digitChar (d : Nat) : Char :=
  if d = 0 then '0' else if d = 1 then '1' else if d = 2 then '2'
  else if d = 3 then '3' else if d = 4 then '4' else if d = 5 then '5'
  else if d = 6 then '6' else if d = 7 then '7' else if d = 8 then '8' else '9'

/-- Four-digit zero-padded year, as `str(Period)` renders it. -/
def pad4 (y : Nat) : List Char :=
  [digitChar (y / 1000 % 10), digitChar (y / 100 % 10),
   digitChar (y / 10 % 10), digitChar (y % 10)]

/-- Two-digit zero-padded month, as `str(Period)` renders it. -/
def pad2 (m : Nat) : List Char :=
  [digitChar (m / 10 % 10), digitChar (m % 10)]

/-- Character list of the `YYYY-MM` label of a (year, month) pair. -/
def periodChars (p : Nat × Nat) : List Char :=
  pad4 p.1 ++ '-' :: pad2 p.2

/-- `series.dt.to_period("M").astype(str)`: the `YYYY-MM` label of a
nullable timestamp; a `NaT` renders as the literal string `"NaT"`. -/
def monthStr (ot : Option Timestamp) : String :=
  match ot with
  | none => "NaT"
  | some t => String.mk (periodChars (t.year, t.month))

/-- Python string `<` (lexicographic on code points), the order `groupby`
sorts its string keys by. -/
def charsLt : List Char → List Char → Bool
  | _, [] => false
  | [], _ :: _ => true
  | a :: as, b :: bs =>
    if a.toNat < b.toNat then true
    else if a.toNat = b.toNat then charsLt as bs
    else false

def strLt (a b : String) : Bool := charsLt a.data b.data

/-- Insert a key into a sorted duplicate-free key list (Python `<` order). -/
def insertKey (k : String) : List String → List String
  | [] => [k]
  | x :: xs =>
    if strLt k x then k :: x :: xs
    else if k = x then x :: xs
    else x :: insertKey k xs

/-- The sorted distinct keys of a `groupby`, in ascending Python string order. -/
def uniqueKeys (l : List String) : List String := l.foldr insertKey []

/-- One pre-relabel row of `backlog_df` after the three left-merges and
`fillna(0)` (a month missing from a merged aggregate contributes 0). -/
structure LedgerRow where
  mes : String
  abertos : Int
  fechadosMesmoMes : Int
  transferidos : Int
  emAberto : Int
deriving DecidableEq

/-- `backlog_df` straight after the merges: one row per distinct
`Mês Abertura` value, in `groupby`'s sorted key order, carrying the four
counts (`Chamados Abertos`, `... Fechados no Mesmo Mês`,
`... Transferidos`, `... em Aberto`). -/
def ledgerRows (rows : List Row) : List LedgerRow :=
  (uniqueKeys (rows.map (fun r => monthStr r.opened))).map fun m =>
    { mes := m
      abertos := ((rows.filter fun r => decide (monthStr r.opened = m)).length : Int)
      fechadosMesmoMes := ((rows.filter fun r =>
        decide (monthStr r.opened = m) &&
        decide (monthStr r.opened = monthStr r.closed)).length : Int)
      transferidos := ((rows.filter fun r =>
        decide (monthStr r.opened = m) &&
        !decide (monthStr r.opened = monthStr r.closed)).length : Int)
      emAberto := ((rows.filter fun r =>
        decide (monthStr r.opened = m) && decide (r.closed = none)).length : Int) }

/-- The `meses_pt` dictionary lookup with its `'Mês Desconhecido'` default. -/
def meses_pt (s : String) : String :=
  if s = "1" then "Janeiro" else if s = "2" then "Fevereiro"
  else if s = "3" then "Março" else if s = "4" then "Abril"
  else if s = "5" then "Maio" else if s = "6" then "Junho"
  else if s = "7" then "Julho" else if s = "8" then "Agosto"
  else if s = "9" then "Setembro" else if s = "10" then "Outubro"
  else if s = "11" then "Novembro" else if s = "12" then "Dezembro"
  else "Mês Desconhecido"

def splitDashAux (acc : List Char) : List Char → List (List Char)
  | [] => [acc.reverse]
  | c :: cs =>
    if c = '-' then acc.reverse :: splitDashAux [] cs
    else splitDashAux (c :: acc) cs

/-- Python `s.split('-')` (never returns an empty list; `"".split('-') == [""]`). -/
def splitDash (s : List Char) : List (List Char) := splitDashAux [] s

/-- The source's `converter_mes_ano`: `ano, mes = periodo.split('-')`
(raising `ValueError` unless the split has exactly two parts), strip the
month's leading zeros, look the month up in `meses_pt`, and return
`f"{mes_pt}-{ano}"`.  The raise is modelled as `Except.error`. -/
def converter_mes_ano (periodo : String) : Except String String :=
  match splitDash periodo.data with
  | [ano, mes] =>
    Except.ok (meses_pt (String.mk (mes.dropWhile fun c => c = '0')) ++
      "-" ++ String.mk ano)
  | _ => Except.error "ValueError: not enough values to unpack"

/-- `Series.apply` over a column: row order preserved, the first raised
exception propagates. -/
def mapExcept (f : α → Except ε β) : List α → Except ε (List β)
  | [] => Except.ok []
  | x :: xs => do
    let y ← f x
    let ys ← mapExcept f xs
    pure (y :: ys)

/-- A displayed row of `backlog_df`: the relabeled month plus the
`Backlog Acumulado` column. -/
structure FinalRow where
  mesAbertura : String
  abertos : Int
  fechadosMesmoMes : Int
  transferidos : Int
  emAberto : Int
  backlogAcumulado : Int
deriving DecidableEq

/-- Lines 977–981: `Backlog Acumulado = (Abertos - FechadosMesmoMes).cumsum()`
then `+= Chamados em Aberto` row-wise (the running sum does not absorb the
open count of earlier rows). -/
def cumulAux (acc : Int) : List LedgerRow → List FinalRow
  | [] => []
  | r :: rs =>
    let acc' := acc + r.abertos - r.fechadosMesmoMes
    { mesAbertura := r.mes, abertos := r.abertos,
      fechadosMesmoMes := r.fechadosMesmoMes, transferidos := r.transferidos,
      emAberto := r.emAberto, backlogAcumulado := acc' + r.emAberto } :: cumulAux acc' rs

/-- The backlog tab of `create_charts` (lines 917–981): build the merged
ledger, relabel `Mês Abertura` through `converter_mes_ano`, then compute
`Backlog Acumulado`.  The tab body has no `try`/`except`, so an exception
raised by the relabel propagates out of the whole tab — hence the
`Except` codomain with no handler. -/
def create_charts_backlog (rows : List Row) : Except String (List FinalRow) := do
  let base := ledgerRows rows
  let relabeled ← mapExcept (fun r => do
    let l ← converter_mes_ano r.mes
    pure { r with mes := l }) base
  pure (cumulAux 0 relabeled)

/-- Mask of line 32: `df['Situação'] == 'Cancelado'`. -/
def mask_cancelado (r : Row) : Prop := r.situacao = some "Cancelado"

/-- Mask of line 33: `df['Situação'].isin(['Em Atendimento', 'Aguardando Atendimento'])`. -/
def mask_atendimento (r : Row) : Prop :=
  r.situacao = some "Em Atendimento" ∨ r.situacao = some "Aguardando Atendimento"

/-- Mask of line 34: `df['Etapa'].isin(['Reprovado', 'Atendimento Reprovado'])`. -/
def mask_etapa_reprovado (r : Row) : Prop :=
  r.etapa = some "Reprovado" ∨ r.etapa = some "Atendimento Reprovado"

/-- Mask of line 35: `df['Situação'] == 'Aguardando confirmação de encerramento'`. -/
def mask_encerrado (r : Row) : Prop :=
  r.situacao = some "Aguardando confirmação de encerramento"

/-- Mask of line 36: `df['Situação'] == 'Suspenso'`. -/
def mask_suspenso (r : Row) : Prop := r.situacao = some "Suspenso"

/-- Mask of line 37: `df['Categoria 2'] == 'SAP'`. -/
def mask_incidentes (r : Row) : Prop := r.cat2 = some "SAP"

instance : Decidable (mask_cancelado r) := by unfold mask_cancelado; infer_instance
instance : Decidable (mask_atendimento r) := by unfold mask_atendimento; infer_instance
instance : Decidable (mask_etapa_reprovado r) := by unfold mask_etapa_reprovado; infer_instance
instance : Decidable (mask_encerrado r) := by unfold mask_encerrado; infer_instance
instance : Decidable (mask_suspenso r) := by unfold mask_suspenso; infer_instance
instance : Decidable (mask_incidentes r) := by unfold mask_incidentes; infer_instance

def w_cancelado_reprovado (r : Row) : Row :=
  { r with situacao := some "Reprovado", etapa := some "Reprovado" }
def w_cancelado (r : Row) : Row :=
  { r with situacao := some "Cancelado", etapa := some "Cancelado" }
def w_encerrado (r : Row) : Row := { r with situacao := some "Encerrado" }
def w_atendimento (r : Row) : Row := { r with situacao := some "Em Atendimento" }
def w_incidente (r : Row) : Row := { r with cat2 := some "Incidente" }
def w_suspenso (r : Row) : Row :=
  { r with situacao := some "Aguardando Aprovação/Pausado" }

/-- `df.loc[mask, cols] = value` for a mask vector computed beforehand:
rewrite exactly the rows whose mask bit is set, in place. -/
def applyMask (mask : List Bool) (w : Row → Row) (t : List Row) : List Row :=
  List.zipWith (fun b r => if b then w r else r) mask t

/-- Lines 32–45 of `load_data`: the six rule masks are all computed against
the incoming dataframe, then the six `.loc` writes run in order.  A write
performed by an earlier rule is visible to later writes but not to any
mask. -/
def apply_rules (t : List Row) : List Row :=
  applyMask (t.map fun r => decide (mask_suspenso r)) w_suspenso
    (applyMask (t.map fun r => decide (mask_incidentes r)) w_incidente
      (applyMask (t.map fun r => decide (mask_atendimento r)) w_atendimento
        (applyMask (t.map fun r => decide (mask_encerrado r)) w_encerrado
          (applyMask (t.map fun r => decide (mask_cancelado r) && !decide (mask_etapa_reprovado r)) w_cancelado
            (applyMask (t.map fun r => decide (mask_cancelado r) && decide (mask_etapa_reprovado r)) w_cancelado_reprovado t)))))

/-- The per-row reading of the rules: every predicate is evaluated on the
original row `r`, the writes are layered in rule order. -/
def apply_rules_row (r : Row) : Row :=
  let r1 := if mask_cancelado r ∧ mask_etapa_reprovado r then w_cancelado_reprovado r else r
  let r2 := if mask_cancelado r ∧ ¬ mask_etapa_reprovado r then w_cancelado r1 else r1
  let r3 := if mask_encerrado r then w_encerrado r2 else r2
  let r4 := if mask_atendimento r then w_atendimento r3 else r3
  let r5 := if mask_incidentes r then w_incidente r4 else r4
  if mask_suspenso r then w_suspenso r5 else r5

/-- Line 48: `(df["Data de término do atendimento"] - df["Data da abertura"]).dt.days`
— the timedelta's whole-day component, i.e. the floor of the elapsed time
in days; `NaN` as soon as either timestamp is `NaT`. -/
def tempo_atendimento (r : Row) : Option Int :=
  match r.opened, r.closed with
  | some o, some c => some ((c.minutes - o.minutes).fdiv 1440)
  | _, _ => none

/-- The calendar date of a timestamp, as a linear day index (what `.date`
would yield: the clock value floored to midnight). -/
def date_of (t : Timestamp) : Int := t.minutes.fdiv 1440

/-- A raw spreadsheet cell of a date column, before
`pd.to_datetime(..., errors='coerce')`: a real timestamp, unparseable
text, or an empty cell. -/
inductive RawCell
  | ts (t : Timestamp)
  | text (s : String)
  | blank
deriving DecidableEq

/-- `pd.to_datetime(col, errors='coerce')`: permissive coercion, anything
unparseable becomes `NaT` instead of raising. -/
def to_datetime_coerce : RawCell → Option Timestamp
  | .ts t => some t
  | .text _ => none
  | .blank => none

/-- A raw row of the uploaded export (dates still uncoerced). -/
structure RawRow where
  atendimento : String
  situacao : Option String
  etapa : Option String
  cat1 : Option String
  cat2 : Option String
  prioridade : Option String
  equipe : Option String
  responsavel : Option String
  atraso : Option String
  dataAbertura : RawCell
  dataTermino : RawCell
deriving DecidableEq

def parseDates (r : RawRow) : Row :=
  { atendimento := r.atendimento, situacao := r.situacao, etapa := r.etapa
    cat1 := r.cat1, cat2 := r.cat2, prioridade := r.prioridade
    equipe := r.equipe, responsavel := r.responsavel, atraso := r.atraso
    opened := to_datetime_coerce r.dataAbertura
    closed := to_datetime_coerce r.dataTermino }

/-- The outcome of `pd.read_excel(file)` plus any later in-body raise:
either the tabular data, or the message of the exception the body raised. -/
inductive ExcelFile
  | unreadable (msg : String)
  | table (rows : List RawRow)
deriving DecidableEq

/-- `load_data` (lines 20–77): the whole body sits in one
`try`/`except Exception`; on any raise the error is surfaced via
`st.error` and an empty dataframe is returned.  The result pairs the
produced table with the surfaced error message, if any. -/
def load_data (f : ExcelFile) : List Row × Option String :=
  match f with
  | .unreadable msg => ([], some ("Erro ao processar o arquivo: " ++ msg))
  | .table rows => (apply_rules (rows.map parseDates), none)

/-- Line 156 of `create_metrics`:
`df['Atraso no serviço'].value_counts(normalize=True).get('Não', 0)*100`.
`value_counts` drops nulls and divides by the non-null count; an absent
`'Não'` key falls back to the default `0`. -/
def sla_percent (rows : List Row) : ℚ :=
  let vals := rows.filterMap (fun r => r.atraso)
  if vals.length = 0 then 0
  else ((vals.count "Não" : ℚ) / (vals.length : ℚ)) * 100

/-- `df["Data da abertura"].between(lo, hi)` of line 1072: inclusive on
both ends, and false on a `NaT` opening date. -/
def between_mask (ot : Option Timestamp) (lo hi : Int) : Bool :=
  match ot with
  | none => false
  | some t => decide (lo ≤ t.minutes) && decide (t.minutes ≤ hi)

/-- The filter of `main` (lines 1071–1080): conjunction of the date-range
`between` and the six `isin` membership tests, then `df[mask]`. -/
def main_filter (rows : List Row) (lo hi : Int)
    (sits cats2 cats1 eqs resps pris : List (Option String)) : List Row :=
  rows.filter fun r =>
    between_mask r.opened lo hi &&
    decide (r.situacao ∈ sits) && decide (r.cat2 ∈ cats2) &&
    decide (r.cat1 ∈ cats1) && decide (r.equipe ∈ eqs) &&
    decide (r.responsavel ∈ resps) && decide (r.prioridade ∈ pris)

/-- Chronological order on (year, month) pairs. -/
def pairLt (a b : Nat × Nat) : Bool :=
  decide (a.1 < b.1) || (decide (a.1 = b.1) && decide (a.2 < b.2))

def insertPair (p : Nat × Nat) : List (Nat × Nat) → List (Nat × Nat)
  | [] => [p]
  | q :: qs =>
    if pairLt p q then p :: q :: qs
    else if p = q then q :: qs
    else q :: insertPair p qs

/-- The distinct (year, month) pairs of a list, in chronological order. -/
def uniquePairs (l : List (Nat × Nat)) : List (Nat × Nat) := l.foldr insertPair []

/-- The (year, month) of a row's opening date (junk on a null opening
date; the spec-side ledger is only invoked on rows with a non-null one). -/
def openedPair (r : Row) : Nat × Nat :=
  match r.opened with
  | some t => (t.year, t.month)
  | none => (0, 0)

/-- The (year, month) of a row's closing date, `none` when still open. -/
def closedPair (r : Row) : Option (Nat × Nat) :=
  match r.closed with
  | some t => some (t.year, t.month)
  | none => none

/-- The localized month name of a month number, per the spec's relabeling
step ("month number 4 → the localized name for April"). -/
def mes_nome (m : Nat) : String :=
  if m = 1 then "Janeiro" else if m = 2 then "Fevereiro"
  else if m = 3 then "Março" else if m = 4 then "Abril"
  else if m = 5 then "Maio" else if m = 6 then "Junho"
  else if m = 7 then "Julho" else if m = 8 then "Agosto"
  else if m = 9 then "Setembro" else if m = 10 then "Outubro"
  else if m = 11 then "Novembro" else if m = 12 then "Dezembro"
  else "Mês Desconhecido"

/-- Spec-side "Month-Year" display label of a (year, month) pair. -/
def spec_month_label (p : Nat × Nat) : String :=
  mes_nome p.2 ++ "-" ++ String.mk (pad4 p.1)

/-- Modelled from the spec, §4.2: one ledger row per opened month present,
months in chronological order, `opened_count` / `closed_same_month_count`
(closing month equal to the opening month) / `transferred_count` (closing
month different or null) / `currently_open_count` (null closing date),
then `cumulative_backlog` as the running sum of
`opened_count − closed_same_month_count` with the row's own
`currently_open_count` added once, and the localized label. -/
def spec_counts (rows : List Row) (p : Nat × Nat) : LedgerRow :=
  { mes := spec_month_label p
    abertos := ((rows.filter fun r => decide (openedPair r = p)).length : Int)
    fechadosMesmoMes := ((rows.filter fun r =>
      decide (openedPair r = p) && decide (closedPair r = some p)).length : Int)
    transferidos := ((rows.filter fun r =>
      decide (openedPair r = p) && !decide (closedPair r = some p)).length : Int)
    emAberto := ((rows.filter fun r =>
      decide (openedPair r = p) && decide (r.closed = none)).length : Int) }

def spec_ledger (rows : List Row) : List FinalRow :=
  cumulAux 0 ((uniquePairs (rows.map openedPair)).map (spec_counts rows))

/-- A well-formed calendar timestamp: a four-digit year and a real month
number (every pandas timestamp satisfies this). -/
def WFts (t : Timestamp) : Bool :=
  decide (t.year < 10000) && decide (1 ≤ t.month) && decide (t.month ≤ 12)

/-- A row whose opening date is present and well-formed and whose closing
date, when present, is well-formed. -/
def WFrow (r : Row) : Bool :=
  (match r.opened with | some t => WFts t | none => false) &&
  (match r.closed with | some t => WFts t | none => true)

/-- The `YYYY-MM` label of a (year, month) pair, as a string. -/
def fmtP (p : Nat × Nat) : String := String.mk (periodChars p)

/-- Well-formedness of a (year, month) pair. -/
def WFP (p : Nat × Nat) : Prop := p.1 < 10000 ∧ 1 ≤ p.2 ∧ p.2 ≤ 12

/-- Sample row template for witnesses. -/
def row0 : Row :=
  { atendimento := "REQ-1", situacao := some "Encerrado", etapa := none
    cat1 := none, cat2 := none, prioridade := none, equipe := none
    responsavel := none, atraso := none, opened := none, closed := none }

def row_c5in : Row := { row0 with situacao := some "Cancelado", etapa := some "Reprovado" }
def row_c5out : Row := { row0 with situacao := some "Reprovado", etapa := some "Reprovado" }

def row_c9 : Row := { row0 with atraso := some "Sim" }

def row_c10 : Row := { row0 with opened := some ⟨2024, 1, 100⟩ }

def ts_c4o : Timestamp := ⟨2024, 1, 1380⟩
def ts_c4c : Timestamp := ⟨2024, 1, 1500⟩
def row_c4 : Row := { row0 with opened := some ts_c4o, closed := some ts_c4c }

def ts_c4wo : Timestamp := ⟨2024, 1, 0⟩
def ts_c4wc : Timestamp := ⟨2024, 1, 2880⟩
def row_c4w : Row := { row0 with opened := some ts_c4wo, closed := some ts_c4wc }

def row_c2 : Row :=
  { row0 with opened := some ⟨2024, 1, 0⟩, closed := some ⟨2024, 1, 100⟩ }
def fr_c2 : FinalRow :=
  { mesAbertura := "Janeiro-2024", abertos := 1, fechadosMesmoMes := 1
    transferidos := 0, emAberto := 0, backlogAcumulado := 0 }

theorem apply_rules_nil : apply_rules [] = [] := rfl

theorem apply_rules_cons (r : Row) (rs : List Row) :
    apply_rules (r :: rs) = apply_rules_row r :: apply_rules rs := by
  simp only [apply_rules, apply_rules_row, applyMask, List.map_cons,
    List.zipWith_cons_cons, List.cons.injEq]
  constructor
  · by_cases h1 : mask_cancelado r <;> by_cases h2 : mask_etapa_reprovado r <;>
      by_cases h3 : mask_encerrado r <;> by_cases h4 : mask_atendimento r <;>
      by_cases h5 : mask_incidentes r <;> by_cases h6 : mask_suspenso r <;>
      simp [h1, h2, h3, h4, h5, h6]
  · trivial

/-- Shared core of the normalizer claims: the mask-based bulk rewrite of
lines 32–45 equals the row-wise map of `apply_rules_row`, whose predicates
all read the original row. -/
theorem apply_rules_eq_map (t : List Row) :
    apply_rules t = t.map apply_rules_row := by
  induction t with
  | nil => rfl
  | cons r rs ih => rw [apply_rules_cons, ih, List.map_cons]

theorem apply_rules_row_no_cancel_reprov (r : Row) :
    ¬ ((apply_rules_row r).situacao = some "Cancelado" ∧
       ((apply_rules_row r).etapa = some "Reprovado" ∨
        (apply_rules_row r).etapa = some "Atendimento Reprovado")) := by
  by_cases h1 : mask_cancelado r <;> by_cases h2 : mask_etapa_reprovado r <;>
    by_cases h3 : mask_encerrado r <;> by_cases h4 : mask_atendimento r <;>
    by_cases h5 : mask_incidentes r <;> by_cases h6 : mask_suspenso r <;>
    simp_all [apply_rules_row, mask_cancelado, mask_etapa_reprovado,
      mask_encerrado, mask_atendimento, mask_incidentes, mask_suspenso,
      w_cancelado_reprovado, w_cancelado, w_encerrado, w_atendimento,
      w_incidente, w_suspenso]

/-- Shared core of the idempotence claim: one more pass of the per-row
rules over its own output changes nothing at all. -/
theorem apply_rules_row_idem (r : Row) :
    apply_rules_row (apply_rules_row r) = apply_rules_row r := by
  by_cases h1 : mask_cancelado r <;> by_cases h2 : mask_etapa_reprovado r <;>
    by_cases h3 : mask_encerrado r <;> by_cases h4 : mask_atendimento r <;>
    by_cases h5 : mask_incidentes r <;> by_cases h6 : mask_suspenso r <;>
    simp_all [apply_rules_row, mask_cancelado, mask_etapa_reprovado,
      mask_encerrado, mask_atendimento, mask_incidentes, mask_suspenso,
      w_cancelado_reprovado, w_cancelado, w_encerrado, w_atendimento,
      w_incidente, w_suspenso]

/-- Helper: the `YYYY-MM` label of a present timestamp is never the
string `"NaT"`. -/
theorem monthStr_some_ne_nat (t : Timestamp) : monthStr (some t) ≠ "NaT" := by
  intro h
  have h2 := congrArg String.data h
  have h3 : ("NaT" : String).data = ['N', 'a', 'T'] := rfl
  rw [h3] at h2
  simp only [monthStr, periodChars, pad4, pad2, List.cons_append,
    List.nil_append] at h2
  simp at h2

/-- C3: in the Ticket Normalizer all six rule masks are evaluated against
the original pre-rewrite field values: the table-level mask pipeline of
lines 32–45 equals the order-preserving row-wise map of `apply_rules_row`,
whose every predicate reads the untouched input row, while its writes are
layered into the final output. -/
theorem c3_masks_see_original_snapshot (t : List Row) :
    apply_rules t = t.map apply_rules_row :=
  apply_rules_eq_map t

/-- C5: after normalization no row has `status = "Cancelado"` together
with `stage ∈ {"Reprovado", "Atendimento Reprovado"}` — rule 1 rewrites
every such input row to `"Reprovado"`, and rule 2 stamps the stage
`"Cancelado"` on every row it leaves with status `"Cancelado"`. -/
theorem c5_no_cancelado_with_reproved_stage (t : List Row) (r : Row)
    (h : r ∈ apply_rules t) :
    ¬ (r.situacao = some "Cancelado" ∧
       (r.etapa = some "Reprovado" ∨ r.etapa = some "Atendimento Reprovado")) := by
  rw [apply_rules_eq_map] at h
  obtain ⟨r0, -, rfl⟩ := List.mem_map.mp h
  exact apply_rules_row_no_cancel_reprov r0

theorem c5_witness :
    ¬ (row_c5out.situacao = some "Cancelado" ∧
       (row_c5out.etapa = some "Reprovado" ∨
        row_c5out.etapa = some "Atendimento Reprovado")) :=
  c5_no_cancelado_with_reproved_stage [row_c5in] row_c5out (by decide)

/-- C6: the rewrite rules are idempotent on `status` and
`category_minor`: re-running the normalizer on its own output leaves both
columns unchanged on every row (rule 4's output `"Em Atendimento"` is
rewritten to itself). -/
theorem c6_rules_idempotent_status_cat (t : List Row) :
    (apply_rules (apply_rules t)).map (fun r => (r.situacao, r.cat2)) =
    (apply_rules t).map (fun r => (r.situacao, r.cat2)) := by
  simp only [apply_rules_eq_map, List.map_map, Function.comp_def]
  simp [apply_rules_row_idem]

/-- C8: `load_data` never raises past its boundary: an unreadable or
otherwise failing load is surfaced as a reported error with an empty
table; a readable table always loads with no error, and unparseable date
cells coerce to null instead of aborting. -/
theorem c8_load_data_never_raises :
    (∀ msg, load_data (ExcelFile.unreadable msg) =
      ([], some ("Erro ao processar o arquivo: " ++ msg))) ∧
    (∀ rows, (load_data (ExcelFile.table rows)).2 = none ∧
      (load_data (ExcelFile.table rows)).1 = apply_rules (rows.map parseDates)) ∧
    (∀ s, to_datetime_coerce (RawCell.text s) = none) ∧
    to_datetime_coerce RawCell.blank = none :=
  ⟨fun _ => rfl, fun _ => ⟨rfl, rfl⟩, fun _ => rfl, rfl⟩

/-- C9: the SLA-compliance percentage is 0 on an empty filtered set (no
division by zero), and 0 whenever no `'Não'` value occurs. -/
theorem c9_sla_percent_zero (rows : List Row) :
    sla_percent [] = 0 ∧
    ((rows.filterMap (fun r => r.atraso)).count "Não" = 0 →
      sla_percent rows = 0) := by
  refine ⟨rfl, fun h => ?_⟩
  unfold sla_percent
  by_cases hl : (rows.filterMap fun r => r.atraso).length = 0
  · simp [hl]
  · simp [hl, h]

theorem c9_witness :
    ([row_c9].filterMap (fun r => r.atraso)).count "Não" = 0 ∧
    sla_percent [row_c9] = 0 :=
  ⟨by decide, (c9_sla_percent_zero [row_c9]).2 (by decide)⟩

/-- C10: every row surviving `main`'s filter mask has a non-null opening
timestamp (`between` is false on `NaT`), so the backlog tab's
opened-month derivation never sees the `"NaT"` label downstream. -/
theorem c10_filtered_rows_opened_not_null (rows : List Row) (lo hi : Int)
    (sits cats2 cats1 eqs resps pris : List (Option String)) (r : Row)
    (h : r ∈ main_filter rows lo hi sits cats2 cats1 eqs resps pris) :
    (∃ t, r.opened = some t) ∧ monthStr r.opened ≠ "NaT" := by
  have hm := (List.mem_filter.mp h).2
  simp only [Bool.and_eq_true] at hm
  have hb := hm.1.1.1.1.1.1
  cases ho : r.opened with
  | none => rw [ho] at hb; simp [between_mask] at hb
  | some t =>
    exact ⟨⟨t, rfl⟩, monthStr_some_ne_nat t⟩

theorem c10_witness :
    (∃ t, row_c10.opened = some t) ∧ monthStr row_c10.opened ≠ "NaT" :=
  c10_filtered_rows_opened_not_null [row_c10] 0 10000
    [some "Encerrado"] [none] [none] [none] [none] [none] row_c10 (by decide)

/-- C4 counterexample: a ticket opened 2024-01-01 23:00 (minute 1380) and
closed 2024-01-02 01:00 (minute 1500) gets `duration_days = 0` from line
48 (floor of the elapsed time in days), while the difference of the two
calendar dates is 1 day — the claimed equality with
`(closed_at.date − opened_at.date).days` fails. -/
theorem c4_counterexample :
    tempo_atendimento row_c4 = some 0 ∧
    date_of ts_c4c - date_of ts_c4o = 1 ∧
    tempo_atendimento row_c4 ≠ some (date_of ts_c4c - date_of ts_c4o) :=
  ⟨by decide, by decide, by decide⟩

/-- C4 amended: `duration_days` is null iff `opened_at` or `closed_at` is
null, and on non-null rows it is the floor of the elapsed time
`closed_at − opened_at` in whole 24-hour days — which agrees with the
calendar-date difference when both timestamps sit at midnight. -/
theorem c4_duration_floor_elapsed (r : Row) :
    (tempo_atendimento r = none ↔ (r.opened = none ∨ r.closed = none)) ∧
    (∀ o c, r.opened = some o → r.closed = some c →
      tempo_atendimento r = some ((c.minutes - o.minutes).fdiv 1440) ∧
      ((1440 : Int) ∣ o.minutes → (1440 : Int) ∣ c.minutes →
        tempo_atendimento r = some (date_of c - date_of o))) := by
  constructor
  · unfold tempo_atendimento
    cases r.opened <;> cases r.closed <;> simp
  · intro o c ho hc
    have hval : tempo_atendimento r = some ((c.minutes - o.minutes).fdiv 1440) := by
      unfold tempo_atendimento; rw [ho, hc]
    refine ⟨hval, fun hdo hdc => ?_⟩
    obtain ⟨a, ha⟩ := hdo
    obtain ⟨b, hb⟩ := hdc
    rw [hval]
    unfold date_of
    rw [ha, hb]
    have h1 : (1440 : Int) * b - 1440 * a = 1440 * (b - a) := by ring
    rw [h1, Int.mul_fdiv_cancel_left _ (by norm_num),
      Int.mul_fdiv_cancel_left _ (by norm_num),
      Int.mul_fdiv_cancel_left _ (by norm_num)]

theorem c4_witness :
    tempo_atendimento row_c4w = some (date_of ts_c4wc - date_of ts_c4wo) :=
  ((c4_duration_floor_elapsed row_c4w).2 ts_c4wo ts_c4wc rfl rfl).2
    ⟨0, by decide⟩ ⟨2, by decide⟩

theorem length_filter_split (l : List α) (p q : α → Bool) :
    (l.filter fun x => p x && q x).length +
      (l.filter fun x => p x && !q x).length = (l.filter p).length := by
  induction l with
  | nil => rfl
  | cons a l ih =>
    cases hp : p a <;> cases hq : q a <;>
      simp [List.filter_cons, hp, hq] <;> omega

/-- Every pre-relabel ledger row satisfies the partition invariant:
its rows with equal open/close month plus its rows with different (or
null) close month are exactly its opened rows. -/
theorem ledgerRows_partition (rows : List Row) :
    ∀ lr ∈ ledgerRows rows,
      lr.fechadosMesmoMes + lr.transferidos = lr.abertos := by
  intro lr hlr
  simp only [ledgerRows, List.mem_map] at hlr
  obtain ⟨m, -, rfl⟩ := hlr
  have h := length_filter_split rows (fun r => decide (monthStr r.opened = m))
    (fun r => decide (monthStr r.opened = monthStr r.closed))
  simp only
  omega

theorem mapExcept_ok_forall {α β ε : Type _} {f : α → Except ε β} {l : List α}
    {out : List β} (P : β → Prop)
    (hp : ∀ x ∈ l, ∀ y, f x = Except.ok y → P y)
    (h : mapExcept f l = Except.ok out) : ∀ y ∈ out, P y := by
  induction l generalizing out with
  | nil =>
    simp only [mapExcept, Except.ok.injEq] at h
    subst h; simp
  | cons x xs ih =>
    simp only [mapExcept] at h
    cases hfx : f x with
    | error e => rw [hfx] at h; simp [Bind.bind, Except.bind] at h
    | ok y =>
      rw [hfx] at h
      cases hrest : mapExcept f xs with
      | error e =>
        rw [hrest] at h; simp [Bind.bind, Except.bind] at h
      | ok ys =>
        rw [hrest] at h
        simp only [Bind.bind, Except.bind, pure, Except.pure,
          Except.ok.injEq] at h
        subst h
        intro z hz
        rcases List.mem_cons.mp hz with hz | hz
        · exact hz ▸ hp x (List.mem_cons_self x xs) y hfx
        · exact ih (fun a ha => hp a (List.mem_cons_of_mem x ha)) hrest z hz

theorem cumulAux_mem (l : List LedgerRow) (acc : Int) (fr : FinalRow)
    (h : fr ∈ cumulAux acc l) :
    ∃ r ∈ l, fr.abertos = r.abertos ∧
      fr.fechadosMesmoMes = r.fechadosMesmoMes ∧
      fr.transferidos = r.transferidos ∧ fr.emAberto = r.emAberto := by
  induction l generalizing acc with
  | nil => simp [cumulAux] at h
  | cons r rs ih =>
    simp only [cumulAux, List.mem_cons] at h
    rcases h with h | h
    · subst h
      exact ⟨r, List.mem_cons_self r rs, rfl, rfl, rfl, rfl⟩
    · obtain ⟨r', hr', hf⟩ := ih _ h
      exact ⟨r', List.mem_cons_of_mem r hr', hf⟩

/-- C2: for every row of the final backlog ledger,
`closed_same_month_count + transferred_count = opened_count`; tickets with
a null closing date count as transferred because the `"NaT"` label never
equals a real month label. -/
theorem c2_ledger_row_partition (rows : List Row) (L : List FinalRow)
    (h : create_charts_backlog rows = Except.ok L) (fr : FinalRow)
    (hfr : fr ∈ L) : fr.fechadosMesmoMes + fr.transferidos = fr.abertos := by
  simp only [create_charts_backlog] at h
  cases hrel : mapExcept (fun r => do
      let l ← converter_mes_ano r.mes
      pure { r with mes := l }) (ledgerRows rows) with
  | error e =>
    rw [hrel] at h; simp [Bind.bind, Except.bind] at h
  | ok relabeled =>
    rw [hrel] at h
    simp only [Bind.bind, Except.bind, pure, Except.pure, Except.ok.injEq] at h
    subst h
    obtain ⟨r', hr', ha, hf2, ht, -⟩ := cumulAux_mem relabeled 0 fr hfr
    have hinv : r'.fechadosMesmoMes + r'.transferidos = r'.abertos := by
      refine mapExcept_ok_forall
        (fun y => y.fechadosMesmoMes + y.transferidos = y.abertos)
        (fun x hx y hy => ?_) hrel r' hr'
      cases hconv : converter_mes_ano x.mes with
      | error e => rw [hconv] at hy; simp [Bind.bind, Except.bind] at hy
      | ok lab =>
        rw [hconv] at hy
        simp only [Bind.bind, Except.bind, pure, Except.pure,
          Except.ok.injEq] at hy
        subst hy
        exact ledgerRows_partition rows x hx
    rw [ha, hf2, ht]
    exact hinv

theorem c2_witness : fr_c2.fechadosMesmoMes + fr_c2.transferidos = fr_c2.abertos :=
  c2_ledger_row_partition [row_c2] [fr_c2] rfl fr_c2 (List.mem_singleton.mpr rfl)

theorem mem_insertKey_self (k : String) (l : List String) : k ∈ insertKey k l := by
  induction l with
  | nil => simp [insertKey]
  | cons x xs ih =>
    unfold insertKey
    by_cases h1 : strLt k x
    · rw [if_pos h1]; exact List.mem_cons_self k (x :: xs)
    · rw [if_neg h1]
      by_cases h2 : k = x
      · rw [if_pos h2, h2]; exact List.mem_cons_self x xs
      · rw [if_neg h2]; exact List.mem_cons_of_mem x ih

theorem mem_insertKey_of_mem (k a : String) (l : List String) (h : a ∈ l) :
    a ∈ insertKey k l := by
  induction l with
  | nil => simp at h
  | cons x xs ih =>
    unfold insertKey
    rcases List.mem_cons.mp h with rfl | ha
    · by_cases h1 : strLt k a
      · rw [if_pos h1]; exact List.mem_cons_of_mem k (List.mem_cons_self a xs)
      · rw [if_neg h1]
        by_cases h2 : k = a
        · rw [if_pos h2]; exact List.mem_cons_self a xs
        · rw [if_neg h2]; exact List.mem_cons_self a _
    · by_cases h1 : strLt k x
      · rw [if_pos h1]
        exact List.mem_cons_of_mem k (List.mem_cons_of_mem x ha)
      · rw [if_neg h1]
        by_cases h2 : k = x
        · rw [if_pos h2]; exact List.mem_cons_of_mem x ha
        · rw [if_neg h2]; exact List.mem_cons_of_mem x (ih ha)

theorem mem_uniqueKeys_of_mem (a : String) (l : List String) (h : a ∈ l) :
    a ∈ uniqueKeys l := by
  induction l with
  | nil => simp at h
  | cons x xs ih =>
    rcases List.mem_cons.mp h with rfl | ha
    · exact mem_insertKey_self a (uniqueKeys xs)
    · exact mem_insertKey_of_mem x a (uniqueKeys xs) (ih ha)

theorem mapExcept_error {α β ε : Type _} (f : α → Except ε β) (l : List α)
    (h : ∃ x ∈ l, ∃ e, f x = Except.error e) :
    ∃ e, mapExcept f l = Except.error e := by
  induction l with
  | nil => simp at h
  | cons x xs ih =>
    obtain ⟨y, hy, e, he⟩ := h
    unfold mapExcept
    rcases List.mem_cons.mp hy with rfl | hmem
    · exact ⟨e, by rw [he]; rfl⟩
    · cases hfx : f x with
      | error e' => exact ⟨e', rfl⟩
      | ok v =>
        obtain ⟨e', he'⟩ := ih ⟨y, hmem, e, he⟩
        refine ⟨e', ?_⟩
        rw [he']
        rfl

/-- C7 counterexample: feeding the backlog tab one ticket whose opening
date is null makes `converter_mes_ano` raise on the `"NaT"` month label,
and the exception escapes `create_charts` — it is not caught and turned
into a warning as claimed, because the backlog tab has no isolating
`try`/`except`. -/
theorem c7_counterexample :
    create_charts_backlog [row0] =
      Except.error "ValueError: not enough values to unpack" := rfl

/-- C7 amended: failures inside the backlog aggregation are NOT caught at
the backlog boundary: whenever some row's opening date is null the
opened-month label `"NaT"` cannot be split into year and month, and the
resulting exception propagates out of the backlog tab (and hence out of
`create_charts`), uncaught, instead of being reported as a non-fatal
warning. -/
theorem c7_backlog_errors_escape (rows : List Row)
    (h : ∃ r ∈ rows, r.opened = none) :
    ∃ msg, create_charts_backlog rows = Except.error msg := by
  obtain ⟨r, hr, hro⟩ := h
  have hmem : "NaT" ∈ (rows.map fun r => monthStr r.opened) :=
    List.mem_map.mpr ⟨r, hr, by rw [hro]; rfl⟩
  have hkey := mem_uniqueKeys_of_mem _ _ hmem
  have hlr : ∃ lr ∈ ledgerRows rows, lr.mes = "NaT" := by
    refine ⟨_, List.mem_map.mpr ⟨"NaT", hkey, rfl⟩, rfl⟩
  obtain ⟨lr, hlrm, hlrn⟩ := hlr
  obtain ⟨e, he⟩ := mapExcept_error
    (fun r => do
      let l ← converter_mes_ano r.mes
      pure { r with mes := l }) (ledgerRows rows)
    ⟨lr, hlrm, "ValueError: not enough values to unpack",
      by simp only [hlrn]; rfl⟩
  refine ⟨e, ?_⟩
  simp only [create_charts_backlog]
  rw [he]
  rfl

theorem c7_witness : ∃ msg, create_charts_backlog [row0] = Except.error msg :=
  c7_backlog_errors_escape [row0] ⟨row0, List.mem_singleton.mpr rfl, rfl⟩

theorem digitChar_toNat (d : Nat) (h : d < 10) : (digitChar d).toNat = 48 + d := by
  interval_cases d <;> decide

theorem mod10_lt (n : Nat) : n % 10 < 10 := Nat.mod_lt _ (by norm_num)

theorem digitChar_toNat_mod (n : Nat) :
    (digitChar (n % 10)).toNat = 48 + n % 10 :=
  digitChar_toNat _ (mod10_lt n)

theorem digitChar_ne_dash (n : Nat) : (digitChar n = '-') = False := by
  unfold digitChar
  split_ifs <;> simp

theorem digitChar_inj (a b : Nat) (ha : a < 10) (hb : b < 10)
    (h : digitChar a = digitChar b) : a = b := by
  have := congrArg Char.toNat h
  rw [digitChar_toNat a ha, digitChar_toNat b hb] at this
  omega

theorem charsLt_cons (a b : Char) (as bs : List Char) :
    charsLt (a :: as) (b :: bs) =
      if a.toNat < b.toNat then true
      else if a.toNat = b.toNat then charsLt as bs else false := rfl

theorem charsLt_digit_cons (x y : Nat) (as bs : List Char) :
    charsLt (digitChar (x % 10) :: as) (digitChar (y % 10) :: bs) =
      if x % 10 < y % 10 then true
      else if x % 10 = y % 10 then charsLt as bs else false := by
  rw [charsLt_cons, digitChar_toNat _ (mod10_lt x), digitChar_toNat _ (mod10_lt y)]
  by_cases h1 : x % 10 < y % 10
  · rw [if_pos (by omega), if_pos h1]
  · rw [if_neg (by omega), if_neg h1]
    by_cases h2 : x % 10 = y % 10
    · rw [if_pos (by omega), if_pos h2]
    · rw [if_neg (by omega), if_neg h2]

theorem charsLt_dash_cons (as bs : List Char) :
    charsLt ('-' :: as) ('-' :: bs) = charsLt as bs := by
  rw [charsLt_cons]
  norm_num

/-- Python string `<` on two `YYYY-MM` labels with four-digit years and
two-digit months is exactly chronological order on the (year, month)
pairs. -/
theorem charsLt_periodChars (y₁ m₁ y₂ m₂ : Nat)
    (hy₁ : y₁ < 10000) (hy₂ : y₂ < 10000) (hm₁ : m₁ < 100) (hm₂ : m₂ < 100) :
    charsLt (periodChars (y₁, m₁)) (periodChars (y₂, m₂)) =
      pairLt (y₁, m₁) (y₂, m₂) := by
  rw [Bool.eq_iff_iff]
  have hnil : charsLt ([] : List Char) [] = false := rfl
  simp only [periodChars, pad4, pad2, List.cons_append, List.nil_append,
    charsLt_digit_cons, charsLt_dash_cons, hnil, pairLt, Bool.or_eq_true,
    Bool.and_eq_true, decide_eq_true_eq, ite_eq_iff]
  simp only [Bool.true_eq_false, Bool.false_eq_true, and_false, false_or,
    or_false, and_true, true_and, not_lt]
  have d1 : y₁ = 1000*(y₁/1000%10) + 100*(y₁/100%10) + 10*(y₁/10%10) + y₁%10 := by
    omega
  have d2 : y₂ = 1000*(y₂/1000%10) + 100*(y₂/100%10) + 10*(y₂/10%10) + y₂%10 := by
    omega
  have d3 : m₁ = 10*(m₁/10%10) + m₁%10 := by omega
  have d4 : m₂ = 10*(m₂/10%10) + m₂%10 := by omega
  omega

theorem periodChars_inj (y₁ m₁ y₂ m₂ : Nat)
    (hy₁ : y₁ < 10000) (hy₂ : y₂ < 10000) (hm₁ : m₁ < 100) (hm₂ : m₂ < 100)
    (h : periodChars (y₁, m₁) = periodChars (y₂, m₂)) : y₁ = y₂ ∧ m₁ = m₂ := by
  simp only [periodChars, pad4, pad2, List.cons_append, List.nil_append,
    List.cons.injEq, and_true] at h
  obtain ⟨h1, h2, h3, h4, -, h5, h6⟩ := h
  have e1 := digitChar_inj _ _ (mod10_lt _) (mod10_lt _) h1
  have e2 := digitChar_inj _ _ (mod10_lt _) (mod10_lt _) h2
  have e3 := digitChar_inj _ _ (mod10_lt _) (mod10_lt _) h3
  have e4 := digitChar_inj _ _ (mod10_lt _) (mod10_lt _) h4
  have e5 := digitChar_inj _ _ (mod10_lt _) (mod10_lt _) h5
  have e6 := digitChar_inj _ _ (mod10_lt _) (mod10_lt _) h6
  omega

theorem fmtP_inj (p q : Nat × Nat) (hp : WFP p) (hq : WFP q) :
    fmtP p = fmtP q ↔ p = q := by
  obtain ⟨py, pm⟩ := p
  obtain ⟨qy, qm⟩ := q
  obtain ⟨hp1, hp2, hp3⟩ := hp
  obtain ⟨hq1, hq2, hq3⟩ := hq
  constructor
  · intro h
    have hd := congrArg String.data h
    simp only [fmtP] at hd
    have := periodChars_inj py pm qy qm hp1 hq1 (by omega) (by omega) hd
    simp [this.1, this.2]
  · intro h
    rw [h]

theorem strLt_fmtP (p q : Nat × Nat) (hp : WFP p) (hq : WFP q) :
    strLt (fmtP p) (fmtP q) = pairLt p q := by
  obtain ⟨py, pm⟩ := p
  obtain ⟨qy, qm⟩ := q
  exact charsLt_periodChars py pm qy qm hp.1 hq.1
    (by have := hp.2.2; omega) (by have := hq.2.2; omega)

theorem uniquePairs_cons (p : Nat × Nat) (ps : List (Nat × Nat)) :
    uniquePairs (p :: ps) = insertPair p (uniquePairs ps) := rfl

theorem uniqueKeys_cons (k : String) (ks : List String) :
    uniqueKeys (k :: ks) = insertKey k (uniqueKeys ks) := rfl

theorem mem_insertPair (p q : Nat × Nat) (l : List (Nat × Nat))
    (h : q ∈ insertPair p l) : q = p ∨ q ∈ l := by
  induction l with
  | nil =>
    simp [insertPair] at h
    exact Or.inl h
  | cons x xs ih =>
    unfold insertPair at h
    by_cases h1 : pairLt p x
    · rw [if_pos h1] at h
      rcases List.mem_cons.mp h with rfl | h
      · exact Or.inl rfl
      · exact Or.inr h
    · rw [if_neg h1] at h
      by_cases h2 : p = x
      · rw [if_pos h2] at h
        exact Or.inr h
      · rw [if_neg h2] at h
        rcases List.mem_cons.mp h with rfl | h
        · exact Or.inr (List.mem_cons_self _ _)
        · rcases ih h with h | h
          · exact Or.inl h
          · exact Or.inr (List.mem_cons_of_mem _ h)

theorem mem_uniquePairs_sub (l : List (Nat × Nat)) (q : Nat × Nat)
    (h : q ∈ uniquePairs l) : q ∈ l := by
  induction l with
  | nil => simp [uniquePairs] at h
  | cons x xs ih =>
    rw [uniquePairs_cons] at h
    rcases mem_insertPair x q (uniquePairs xs) h with rfl | h
    · exact List.mem_cons_self _ _
    · exact List.mem_cons_of_mem _ (ih h)

theorem insertKey_fmtP (p : Nat × Nat) (l : List (Nat × Nat)) (hp : WFP p)
    (hl : ∀ q ∈ l, WFP q) :
    insertKey (fmtP p) (l.map fmtP) = (insertPair p l).map fmtP := by
  induction l with
  | nil => rfl
  | cons q qs ih =>
    have hq := hl q (List.mem_cons_self q qs)
    rw [List.map_cons]
    unfold insertKey insertPair
    rw [strLt_fmtP p q hp hq]
    by_cases h1 : pairLt p q
    · rw [if_pos h1, if_pos h1, List.map_cons, List.map_cons]
    · rw [if_neg h1, if_neg h1]
      by_cases h2 : p = q
      · rw [if_pos ((fmtP_inj p q hp hq).mpr h2), if_pos h2, List.map_cons]
      · rw [if_neg (fun hc => h2 ((fmtP_inj p q hp hq).mp hc)), if_neg h2,
          List.map_cons, ih (fun a ha => hl a (List.mem_cons_of_mem q ha))]

/-- Sorting-and-deduplicating the `YYYY-MM` labels by Python string order
is the same as sorting-and-deduplicating the (year, month) pairs
chronologically and labelling afterwards. -/
theorem uniqueKeys_map_fmtP (l : List (Nat × Nat)) (hl : ∀ p ∈ l, WFP p) :
    uniqueKeys (l.map fmtP) = (uniquePairs l).map fmtP := by
  induction l with
  | nil => rfl
  | cons p ps ih =>
    have hps : ∀ a ∈ ps, WFP a := fun a ha => hl a (List.mem_cons_of_mem p ha)
    rw [List.map_cons, uniqueKeys_cons, uniquePairs_cons, ih hps,
      insertKey_fmtP p _ (hl p (List.mem_cons_self p ps))
        (fun a ha => hps a (mem_uniquePairs_sub ps a ha))]

theorem WFrow_opened {r : Row} (hw : WFrow r = true) :
    ∃ t, r.opened = some t ∧ WFP (t.year, t.month) := by
  cases ho : r.opened with
  | none =>
    simp only [WFrow, ho, Bool.false_and] at hw
    exact absurd hw (by simp)
  | some t =>
    simp only [WFrow, WFts, ho, Bool.and_eq_true, decide_eq_true_eq] at hw
    obtain ⟨⟨⟨h1, h2⟩, h3⟩, -⟩ := hw
    exact ⟨t, rfl, h1, h2, h3⟩

theorem WFrow_closed {r : Row} (hw : WFrow r = true) {t : Timestamp}
    (hc : r.closed = some t) : WFP (t.year, t.month) := by
  simp only [WFrow, WFts, hc, Bool.and_eq_true, decide_eq_true_eq] at hw
  obtain ⟨-, ⟨h1, h2⟩, h3⟩ := hw
  exact ⟨h1, h2, h3⟩

theorem openedPair_eq {r : Row} {t : Timestamp} (ho : r.opened = some t) :
    openedPair r = (t.year, t.month) := by
  unfold openedPair; rw [ho]

theorem month_open_iff (r : Row) (p : Nat × Nat) (hw : WFrow r = true)
    (hp : WFP p) : (monthStr r.opened = fmtP p) ↔ (openedPair r = p) := by
  obtain ⟨t, ho, htw⟩ := WFrow_opened hw
  have h1 : monthStr r.opened = fmtP (t.year, t.month) := by rw [ho]; rfl
  rw [h1, openedPair_eq ho, fmtP_inj _ _ htw hp]

theorem month_closed_iff (r : Row) (p : Nat × Nat) (hw : WFrow r = true)
    (hp : WFP p) (hop : openedPair r = p) :
    (monthStr r.opened = monthStr r.closed) ↔ (closedPair r = some p) := by
  obtain ⟨t, ho, htw⟩ := WFrow_opened hw
  have hopt : (t.year, t.month) = p := (openedPair_eq ho).symm.trans hop
  have h1 : monthStr r.opened = fmtP (t.year, t.month) := by rw [ho]; rfl
  cases hc : r.closed with
  | none =>
    have h4 : closedPair r = none := by unfold closedPair; rw [hc]
    rw [h1, show monthStr (none : Option Timestamp) = "NaT" from rfl, h4]
    constructor
    · intro h
      exact absurd h (monthStr_some_ne_nat t)
    · intro h
      exact Option.noConfusion h
  | some c =>
    have hcw := WFrow_closed hw hc
    have h4 : closedPair r = some (c.year, c.month) := by unfold closedPair; rw [hc]
    rw [h1, show monthStr (some c) = fmtP (c.year, c.month) from rfl, h4,
      fmtP_inj _ _ htw hcw, Option.some.injEq]
    constructor
    · intro h
      exact h.symm.trans hopt
    · intro h
      exact hopt.trans h.symm

theorem count_open_eq (rows : List Row) (hw : ∀ r ∈ rows, WFrow r = true)
    (p : Nat × Nat) (hp : WFP p) :
    rows.filter (fun r => decide (monthStr r.opened = fmtP p)) =
      rows.filter (fun r => decide (openedPair r = p)) := by
  apply List.filter_congr
  intro r hr
  exact decide_eq_decide.mpr (month_open_iff r p (hw r hr) hp)

theorem count_closed_eq (rows : List Row) (hw : ∀ r ∈ rows, WFrow r = true)
    (p : Nat × Nat) (hp : WFP p) :
    rows.filter (fun r => decide (monthStr r.opened = fmtP p) &&
        decide (monthStr r.opened = monthStr r.closed)) =
      rows.filter (fun r => decide (openedPair r = p) &&
        decide (closedPair r = some p)) := by
  apply List.filter_congr
  intro r hr
  by_cases hA : openedPair r = p
  · have e1 : decide (monthStr r.opened = fmtP p) = true :=
      decide_eq_true ((month_open_iff r p (hw r hr) hp).mpr hA)
    have e2 : decide (openedPair r = p) = true := decide_eq_true hA
    rw [e1, e2, Bool.true_and, Bool.true_and]
    exact decide_eq_decide.mpr (month_closed_iff r p (hw r hr) hp hA)
  · have e1 : decide (monthStr r.opened = fmtP p) = false :=
      decide_eq_false (fun hc => hA ((month_open_iff r p (hw r hr) hp).mp hc))
    have e2 : decide (openedPair r = p) = false := decide_eq_false hA
    rw [e1, e2, Bool.false_and, Bool.false_and]

theorem count_trans_eq (rows : List Row) (hw : ∀ r ∈ rows, WFrow r = true)
    (p : Nat × Nat) (hp : WFP p) :
    rows.filter (fun r => decide (monthStr r.opened = fmtP p) &&
        !decide (monthStr r.opened = monthStr r.closed)) =
      rows.filter (fun r => decide (openedPair r = p) &&
        !decide (closedPair r = some p)) := by
  apply List.filter_congr
  intro r hr
  by_cases hA : openedPair r = p
  · have e1 : decide (monthStr r.opened = fmtP p) = true :=
      decide_eq_true ((month_open_iff r p (hw r hr) hp).mpr hA)
    have e2 : decide (openedPair r = p) = true := decide_eq_true hA
    rw [e1, e2, Bool.true_and, Bool.true_and,
      decide_eq_decide.mpr (month_closed_iff r p (hw r hr) hp hA)]
  · have e1 : decide (monthStr r.opened = fmtP p) = false :=
      decide_eq_false (fun hc => hA ((month_open_iff r p (hw r hr) hp).mp hc))
    have e2 : decide (openedPair r = p) = false := decide_eq_false hA
    rw [e1, e2, Bool.false_and, Bool.false_and]

theorem count_aberto_eq (rows : List Row) (hw : ∀ r ∈ rows, WFrow r = true)
    (p : Nat × Nat) (hp : WFP p) :
    rows.filter (fun r => decide (monthStr r.opened = fmtP p) &&
        decide (r.closed = none)) =
      rows.filter (fun r => decide (openedPair r = p) &&
        decide (r.closed = none)) := by
  apply List.filter_congr
  intro r hr
  rw [decide_eq_decide.mpr (month_open_iff r p (hw r hr) hp)]

theorem WF_openedPairs (rows : List Row) (hw : ∀ r ∈ rows, WFrow r = true) :
    ∀ p ∈ rows.map openedPair, WFP p := by
  intro p hp
  obtain ⟨r, hr, rfl⟩ := List.mem_map.mp hp
  obtain ⟨t, ho, htw⟩ := WFrow_opened (hw r hr)
  rw [openedPair_eq ho]
  exact htw

/-- The merged pre-relabel ledger equals the spec's chronologically
ordered ledger, up to the pending `YYYY-MM` → `Month-Year` relabel. -/
theorem ledgerRows_eq_spec (rows : List Row)
    (hw : ∀ r ∈ rows, WFrow r = true) :
    ledgerRows rows = (uniquePairs (rows.map openedPair)).map
      (fun p => { spec_counts rows p with mes := fmtP p }) := by
  unfold ledgerRows
  have hkeys : rows.map (fun r => monthStr r.opened) =
      (rows.map openedPair).map fmtP := by
    rw [List.map_map]
    apply List.map_congr_left
    intro r hr
    obtain ⟨t, ho, -⟩ := WFrow_opened (hw r hr)
    show monthStr r.opened = fmtP (openedPair r)
    rw [ho, openedPair_eq ho]
    rfl
  have hWFl := WF_openedPairs rows hw
  rw [hkeys, uniqueKeys_map_fmtP _ hWFl, List.map_map]
  apply List.map_congr_left
  intro p hp
  have hpW := hWFl p (mem_uniquePairs_sub _ p hp)
  show LedgerRow.mk (fmtP p) _ _ _ _ = _
  simp only [spec_counts]
  rw [count_open_eq rows hw p hpW, count_closed_eq rows hw p hpW,
    count_trans_eq rows hw p hpW, count_aberto_eq rows hw p hpW]

theorem splitDash_periodChars (p : Nat × Nat) :
    splitDash (periodChars p) = [pad4 p.1, pad2 p.2] := by
  obtain ⟨y, m⟩ := p
  simp [periodChars, pad4, pad2, splitDash, splitDashAux, digitChar_ne_dash]

theorem month_lookup (m : Nat) (h1 : 1 ≤ m) (h2 : m ≤ 12) :
    meses_pt (String.mk ((pad2 m).dropWhile (fun c => c = '0'))) =
      mes_nome m := by
  interval_cases m <;> rfl

theorem converter_fmtP (p : Nat × Nat) (hp : WFP p) :
    converter_mes_ano (fmtP p) = Except.ok (spec_month_label p) := by
  obtain ⟨y, m⟩ := p
  obtain ⟨hy, hm1, hm2⟩ := hp
  have step : converter_mes_ano (fmtP (y, m)) =
      Except.ok (meses_pt (String.mk ((pad2 m).dropWhile (fun c => c = '0'))) ++
        "-" ++ String.mk (pad4 y)) := by
    unfold converter_mes_ano
    have hd : (fmtP (y, m)).data = periodChars (y, m) := rfl
    rw [hd, splitDash_periodChars]
  rw [step, month_lookup m hm1 hm2]
  rfl

theorem mapExcept_map_ok {α β γ ε : Type _} (f : β → Except ε γ) (g : α → β)
    (h' : α → γ) (l : List α) (H : ∀ x ∈ l, f (g x) = Except.ok (h' x)) :
    mapExcept f (l.map g) = Except.ok (l.map h') := by
  induction l with
  | nil => rfl
  | cons x xs ih =>
    simp only [List.map_cons, mapExcept]
    rw [H x (List.mem_cons_self x xs),
      ih (fun a ha => H a (List.mem_cons_of_mem x ha))]
    rfl

/-- C1: on well-formed filtered data the backlog tab computes exactly the
spec's ledger: one row per opened month, rows in chronological month
order, `cumulative_backlog` the running sum of
`opened_count − closed_same_month_count` plus the row's own
`currently_open_count` added once (not re-accumulated), and the localized
`Month-Year` labels. -/
theorem c1_backlog_matches_spec (rows : List Row)
    (hw : ∀ r ∈ rows, WFrow r = true) :
    create_charts_backlog rows = Except.ok (spec_ledger rows) := by
  have hWFl := WF_openedPairs rows hw
  simp only [create_charts_backlog]
  rw [ledgerRows_eq_spec rows hw]
  rw [mapExcept_map_ok _ _ (spec_counts rows) (uniquePairs (rows.map openedPair))
    (fun p hp => ?_)]
  · rfl
  · have hpW := hWFl p (mem_uniquePairs_sub _ p hp)
    show (do
      let l ← converter_mes_ano (fmtP p)
      pure { spec_counts rows p with mes := l } : Except String LedgerRow) =
        Except.ok (spec_counts rows p)
    rw [converter_fmtP p hpW]
    show Except.ok { spec_counts rows p with mes := spec_month_label p } =
      Except.ok (spec_counts rows p)
    simp only [spec_counts]

theorem c1_witness :
    (∀ r ∈ [row_c2], WFrow r = true) ∧
      create_charts_backlog [row_c2] = Except.ok (spec_ledger [row_c2]) :=
  ⟨by decide, c1_backlog_matches_spec [row_c2] (by decide)⟩

end Dashboard
